import Mathlib

/- Formal model of the solana-meme-detector enrichment and scoring pipeline.

   Conventions of the shallow embedding:
   - Python floats that carry decimal market/chain quantities are modelled as
     rationals; all comparisons in the code are order comparisons, which agree
     with the rational reading on every decimal literal involved.
   - Python ints are modelled as Int (or Nat where the source value is a count
     or a byte and hence non-negative).
   - The TTL caches are modelled as explicit association lists threaded through
     the stateful operations, together with an explicit current time.
   - Upstream HTTP traffic is an explicit input (a list or function of
     responses); the embedded functions are deterministic in it. -/

/-! ## TrustScorer (src/app/services/trust_scorer.py) -/

inductive RiskLevel where
  | EXTREME
  | HIGH
  | MEDIUM
  | LOW
  | SAFE
deriving DecidableEq, Repr

/-- Rounding to the nearest integer with ties to the even integer, which is what
the Python built-in round performs on the exact value of its argument. -/
def pyRound (q : ℚ) : ℤ :=
  if q - ⌊q⌋ < 1/2 then ⌊q⌋
  else if 1/2 < q - ⌊q⌋ then ⌊q⌋ + 1
  else if ⌊q⌋ % 2 = 0 then ⌊q⌋ else ⌊q⌋ + 1

/-- Rounding to two decimal places, as Python round(x, 2) on the exact value. -/
def round2 (q : ℚ) : ℚ := (pyRound (q * 100) : ℚ) / 100

/-- RiskFactors echo of the five scoring inputs (schemas.py), with the three
percent/hour inputs rounded to two decimals as in calculate_trust_score. -/
structure RiskFactors where
  mint_authority_enabled : Bool
  freeze_authority_enabled : Bool
  lp_locked_percent : ℚ
  top_10_holder_percent : ℚ
  age_hours : ℚ
deriving DecidableEq, Repr

/-- Sub-score stored under the mint_authority key (trust_scorer.py lines 27-30). -/
def mint_authority_score (mint_authority_enabled : Bool) : ℤ :=
  if mint_authority_enabled then 0 else 100

/-- Sub-score stored under the freeze_authority key (trust_scorer.py lines 32-35). -/
def freeze_authority_score (freeze_authority_enabled : Bool) : ℤ :=
  if freeze_authority_enabled then 0 else 100

/-- Sub-score stored under the lp_locked key (trust_scorer.py lines 37-48). -/
def lp_locked_score (lp_locked_percent : ℚ) : ℤ :=
  if lp_locked_percent ≥ 90 then 100
  else if lp_locked_percent ≥ 80 then 85
  else if lp_locked_percent ≥ 60 then 60
  else if lp_locked_percent ≥ 40 then 40
  else if lp_locked_percent ≥ 20 then 20
  else 0

/-- Sub-score stored under the holder_concentration key (trust_scorer.py lines 50-61). -/
def holder_concentration_score (top_10_holder_percent : ℚ) : ℤ :=
  if top_10_holder_percent ≤ 20 then 100
  else if top_10_holder_percent ≤ 30 then 80
  else if top_10_holder_percent ≤ 40 then 60
  else if top_10_holder_percent ≤ 50 then 40
  else if top_10_holder_percent ≤ 70 then 20
  else 0

/-- Sub-score stored under the token_age key (trust_scorer.py lines 63-74). -/
def token_age_score (age_hours : ℚ) : ℤ :=
  if age_hours ≥ 168 then 100
  else if age_hours ≥ 72 then 80
  else if age_hours ≥ 24 then 60
  else if age_hours ≥ 6 then 40
  else if age_hours ≥ 1 then 20
  else 0

/-- Risk band selection from the rounded trust score (trust_scorer.py lines 84-93). -/
def risk_level_of (trust_score : ℤ) : RiskLevel :=
  if trust_score ≥ 80 then .SAFE
  else if trust_score ≥ 60 then .LOW
  else if trust_score ≥ 40 then .MEDIUM
  else if trust_score ≥ 20 then .HIGH
  else .EXTREME

/-- TrustScorer.calculate_trust_score. The total is accumulated per factor as
factor_score * weight / 100 over the WEIGHTS table mint_authority=25,
freeze_authority=20, lp_locked=25, holder_concentration=20, token_age=10,
then rounded to an int; exact rational arithmetic mirrors the float
arithmetic, which is exact on all values this sum can take. -/
def calculate_trust_score (mint_authority_enabled freeze_authority_enabled : Bool)
    (lp_locked_percent top_10_holder_percent age_hours : ℚ) :
    ℤ × RiskLevel × RiskFactors :=
  let total_score : ℚ :=
    ((mint_authority_score mint_authority_enabled * 25 : ℤ) : ℚ) / 100
    + ((freeze_authority_score freeze_authority_enabled * 20 : ℤ) : ℚ) / 100
    + ((lp_locked_score lp_locked_percent * 25 : ℤ) : ℚ) / 100
    + ((holder_concentration_score top_10_holder_percent * 20 : ℤ) : ℚ) / 100
    + ((token_age_score age_hours * 10 : ℤ) : ℚ) / 100
  let trust_score : ℤ := pyRound total_score
  (trust_score, risk_level_of trust_score,
    ⟨mint_authority_enabled, freeze_authority_enabled, round2 lp_locked_percent,
     round2 top_10_holder_percent, round2 age_hours⟩)

/-! ### Bounds lemmas for the scorer -/

theorem mint_authority_score_bounds (b : Bool) :
    0 ≤ mint_authority_score b ∧ mint_authority_score b ≤ 100 := by
  unfold mint_authority_score; split_ifs <;> omega

theorem freeze_authority_score_bounds (b : Bool) :
    0 ≤ freeze_authority_score b ∧ freeze_authority_score b ≤ 100 := by
  unfold freeze_authority_score; split_ifs <;> omega

theorem lp_locked_score_bounds (q : ℚ) :
    0 ≤ lp_locked_score q ∧ lp_locked_score q ≤ 100 := by
  unfold lp_locked_score; split_ifs <;> omega

theorem holder_concentration_score_bounds (q : ℚ) :
    0 ≤ holder_concentration_score q ∧ holder_concentration_score q ≤ 100 := by
  unfold holder_concentration_score; split_ifs <;> omega

theorem token_age_score_bounds (q : ℚ) :
    0 ≤ token_age_score q ∧ token_age_score q ≤ 100 := by
  unfold token_age_score; split_ifs <;> omega

theorem pyRound_nonneg {q : ℚ} (h : 0 ≤ q) : 0 ≤ pyRound q := by
  have hf : (0 : ℤ) ≤ ⌊q⌋ := Int.floor_nonneg.mpr h
  unfold pyRound; split_ifs <;> omega

theorem pyRound_le_intCast {q : ℚ} {n : ℤ} (h : q ≤ (n : ℚ)) : pyRound q ≤ n := by
  have hfle : ⌊q⌋ ≤ n := by
    have := Int.floor_le_floor h
    simpa using this
  have hlow : (⌊q⌋ : ℚ) ≤ q := Int.floor_le q
  unfold pyRound
  split_ifs with h1 h2 h3
  · exact hfle
  · -- here 1/2 < q - floor q, so floor q < n
    rcases lt_or_eq_of_le hfle with hlt | heq
    · omega
    · exfalso
      have : q - (⌊q⌋ : ℚ) ≤ 0 := by
        rw [heq]
        have : q ≤ (⌊q⌋ : ℚ) := by rw [heq]; exact h
        linarith
      linarith
  · exact hfle
  · rcases lt_or_eq_of_le hfle with hlt | heq
    · omega
    · exfalso
      have hr : ¬ (q - (⌊q⌋ : ℚ) < 1/2) := h1
      have : q - (⌊q⌋ : ℚ) ≤ 0 := by
        have : q ≤ (⌊q⌋ : ℚ) := by rw [heq]; exact h
        linarith
      exact hr (by linarith)

theorem risk_level_of_bands (ts : ℤ) :
    (risk_level_of ts = RiskLevel.SAFE ↔ 80 ≤ ts)
    ∧ (risk_level_of ts = RiskLevel.LOW ↔ 60 ≤ ts ∧ ts < 80)
    ∧ (risk_level_of ts = RiskLevel.MEDIUM ↔ 40 ≤ ts ∧ ts < 60)
    ∧ (risk_level_of ts = RiskLevel.HIGH ↔ 20 ≤ ts ∧ ts < 40)
    ∧ (risk_level_of ts = RiskLevel.EXTREME ↔ ts < 20) := by
  unfold risk_level_of
  split_ifs with h1 h2 h3 h4 <;> refine ⟨?_, ?_, ?_, ?_, ?_⟩ <;> simp_all <;> omega

theorem total_score_bounds (m f : Bool) (lp conc age : ℚ) :
    0 ≤ ((mint_authority_score m * 25 : ℤ) : ℚ) / 100
        + ((freeze_authority_score f * 20 : ℤ) : ℚ) / 100
        + ((lp_locked_score lp * 25 : ℤ) : ℚ) / 100
        + ((holder_concentration_score conc * 20 : ℤ) : ℚ) / 100
        + ((token_age_score age * 10 : ℤ) : ℚ) / 100
    ∧ ((mint_authority_score m * 25 : ℤ) : ℚ) / 100
        + ((freeze_authority_score f * 20 : ℤ) : ℚ) / 100
        + ((lp_locked_score lp * 25 : ℤ) : ℚ) / 100
        + ((holder_concentration_score conc * 20 : ℤ) : ℚ) / 100
        + ((token_age_score age * 10 : ℤ) : ℚ) / 100 ≤ (100 : ℚ) := by
  obtain ⟨h1a, h1b⟩ := mint_authority_score_bounds m
  obtain ⟨h2a, h2b⟩ := freeze_authority_score_bounds f
  obtain ⟨h3a, h3b⟩ := lp_locked_score_bounds lp
  obtain ⟨h4a, h4b⟩ := holder_concentration_score_bounds conc
  obtain ⟨h5a, h5b⟩ := token_age_score_bounds age
  have c1a : (0 : ℚ) ≤ (mint_authority_score m : ℚ) := by exact_mod_cast h1a
  have c1b : (mint_authority_score m : ℚ) ≤ 100 := by exact_mod_cast h1b
  have c2a : (0 : ℚ) ≤ (freeze_authority_score f : ℚ) := by exact_mod_cast h2a
  have c2b : (freeze_authority_score f : ℚ) ≤ 100 := by exact_mod_cast h2b
  have c3a : (0 : ℚ) ≤ (lp_locked_score lp : ℚ) := by exact_mod_cast h3a
  have c3b : (lp_locked_score lp : ℚ) ≤ 100 := by exact_mod_cast h3b
  have c4a : (0 : ℚ) ≤ (holder_concentration_score conc : ℚ) := by exact_mod_cast h4a
  have c4b : (holder_concentration_score conc : ℚ) ≤ 100 := by exact_mod_cast h4b
  have c5a : (0 : ℚ) ≤ (token_age_score age : ℚ) := by exact_mod_cast h5a
  have c5b : (token_age_score age : ℚ) ≤ 100 := by exact_mod_cast h5b
  constructor <;> (push_cast; linarith)

/-- C1: for every combination of inputs, calculate_trust_score returns a trust
score in the interval from 0 to 100, and the returned risk level falls in
exactly one band: at least 80 is SAFE, at least 60 is LOW, at least 40 is
MEDIUM, at least 20 is HIGH, and otherwise EXTREME. -/
theorem C1_trust_score_range_and_bands (m f : Bool) (lp conc age : ℚ) :
    0 ≤ (calculate_trust_score m f lp conc age).1
    ∧ (calculate_trust_score m f lp conc age).1 ≤ 100
    ∧ ((calculate_trust_score m f lp conc age).2.1 = RiskLevel.SAFE
        ↔ 80 ≤ (calculate_trust_score m f lp conc age).1)
    ∧ ((calculate_trust_score m f lp conc age).2.1 = RiskLevel.LOW
        ↔ 60 ≤ (calculate_trust_score m f lp conc age).1
          ∧ (calculate_trust_score m f lp conc age).1 < 80)
    ∧ ((calculate_trust_score m f lp conc age).2.1 = RiskLevel.MEDIUM
        ↔ 40 ≤ (calculate_trust_score m f lp conc age).1
          ∧ (calculate_trust_score m f lp conc age).1 < 60)
    ∧ ((calculate_trust_score m f lp conc age).2.1 = RiskLevel.HIGH
        ↔ 20 ≤ (calculate_trust_score m f lp conc age).1
          ∧ (calculate_trust_score m f lp conc age).1 < 40)
    ∧ ((calculate_trust_score m f lp conc age).2.1 = RiskLevel.EXTREME
        ↔ (calculate_trust_score m f lp conc age).1 < 20) := by
  obtain ⟨hlo, hhi⟩ := total_score_bounds m f lp conc age
  have h1 : 0 ≤ (calculate_trust_score m f lp conc age).1 := by
    unfold calculate_trust_score
    exact pyRound_nonneg hlo
  have h2 : (calculate_trust_score m f lp conc age).1 ≤ 100 := by
    unfold calculate_trust_score
    exact pyRound_le_intCast (by exact_mod_cast hhi)
  have hb := risk_level_of_bands (calculate_trust_score m f lp conc age).1
  have hlevel : (calculate_trust_score m f lp conc age).2.1
      = risk_level_of (calculate_trust_score m f lp conc age).1 := rfl
  rw [hlevel]
  exact ⟨h1, h2, hb.1, hb.2.1, hb.2.2.1, hb.2.2.2.1, hb.2.2.2.2⟩

/-! ### C2: reference (specification) formulation of the scorer -/

/-- Reference sub-score for the mint-authority factor, from the specification:
0 if active else 100. -/
def specMintAuthoritySub (active : Bool) : ℤ := if active then 0 else 100

/-- Reference sub-score for the freeze-authority factor, from the specification:
0 if active else 100. -/
def specFreezeAuthoritySub (active : Bool) : ℤ := if active then 0 else 100

/-- Reference sub-score for locked liquidity, from the specification bands. -/
def specLpLockedSub (lp : ℚ) : ℤ :=
  if lp ≥ 90 then 100
  else if lp ≥ 80 then 85
  else if lp ≥ 60 then 60
  else if lp ≥ 40 then 40
  else if lp ≥ 20 then 20
  else 0

/-- Reference sub-score for holder concentration, from the specification bands. -/
def specHolderConcentrationSub (conc : ℚ) : ℤ :=
  if conc ≤ 20 then 100
  else if conc ≤ 30 then 80
  else if conc ≤ 40 then 60
  else if conc ≤ 50 then 40
  else if conc ≤ 70 then 20
  else 0

/-- Reference sub-score for token age in hours, from the specification bands. -/
def specTokenAgeSub (age : ℚ) : ℤ :=
  if age ≥ 168 then 100
  else if age ≥ 72 then 80
  else if age ≥ 24 then 60
  else if age ≥ 6 then 40
  else if age ≥ 1 then 20
  else 0

/-- Reference trust score from the specification: round of the weighted sum of
the five sub-scores with weights mint=25, freeze=20, lpLocked=25,
concentration=20, age=10, all divided by 100. -/
def specTrustScore (mintActive freezeActive : Bool) (lp conc age : ℚ) : ℤ :=
  pyRound (((specMintAuthoritySub mintActive * 25
      + specFreezeAuthoritySub freezeActive * 20
      + specLpLockedSub lp * 25
      + specHolderConcentrationSub conc * 20
      + specTokenAgeSub age * 10 : ℤ) : ℚ) / 100)

/-- C2: for all inputs the trust score computed by calculate_trust_score equals
the reference definition from the specification (sub-score bands as stated,
weighted sum with weights 25/20/25/20/10, divided by 100 and rounded). -/
theorem C2_trust_score_matches_reference (m f : Bool) (lp conc age : ℚ) :
    (calculate_trust_score m f lp conc age).1 = specTrustScore m f lp conc age := by
  unfold calculate_trust_score specTrustScore
  unfold specMintAuthoritySub specFreezeAuthoritySub specLpLockedSub
    specHolderConcentrationSub specTokenAgeSub
  unfold mint_authority_score freeze_authority_score lp_locked_score
    holder_concentration_score token_age_score
  push_cast
  ring

/-! ### C3: the 90 / 89.99 boundary of the lpLocked band -/

/-- C3 counterexample: the claim asserts that an lp_locked_percent of 89.99
produces an lpLocked sub-score of 60; the code puts 89.99 in the band of at
least 80 and yields 85, not 60. -/
theorem C3_counterexample :
    lp_locked_score (8999/100) = 85 ∧ lp_locked_score (8999/100) ≠ 60 := by
  norm_num [lp_locked_score]

/-- C3 amended: lp_locked_percent exactly 90.0 yields the lpLocked sub-score
100, and 89.99 yields 85 (the band of at least 80), not 60. On the full
scorer, with both authorities enabled, concentration 100 and age 0 the other
four sub-scores are 0, so the trust score directly exhibits the lpLocked band:
25 at lp_locked 90.0 (100 * 25 / 100) and 21 at 89.99 (round of 21.25). -/
theorem C3_lp_locked_boundary :
    lp_locked_score 90 = 100
    ∧ lp_locked_score (8999/100) = 85
    ∧ (calculate_trust_score true true 90 100 0).1 = 25
    ∧ (calculate_trust_score true true (8999/100) 100 0).1 = 21 := by
  refine ⟨by norm_num [lp_locked_score], by norm_num [lp_locked_score], ?_, ?_⟩ <;>
    norm_num [calculate_trust_score, mint_authority_score, freeze_authority_score,
      lp_locked_score, holder_concentration_score, token_age_score, pyRound]

/-! ## MintInfoSource: decoding a raw mint account blob
    (HeliusClient._parse_mint_account, src/app/services/helius.py lines 88-120) -/

/-- MintState decoded from an SPL mint account (helius.py result dict). -/
structure MintState where
  mint_authority_enabled : Bool
  freeze_authority_enabled : Bool
  decimals : Nat
  supply : Nat
deriving DecidableEq, Repr

/-- Most-distrustful default mint state (both authorities assumed active). -/
def defaultMintState : MintState :=
  { mint_authority_enabled := true
    freeze_authority_enabled := true
    decimals := 9
    supply := 0 }

/-- Little-endian unsigned integer of a byte list, as int.from_bytes with
byteorder little reads it. -/
def leBytesToNat : List Nat → Nat
  | [] => 0
  | b :: rest => b + 256 * leBytesToNat rest

/-- HeliusClient._parse_mint_account on the base64-decoded account bytes
(raw_data). Fields are filled from the defaults and then overwritten exactly
as the source does, with each slice guarded by the same length checks. -/
def parse_mint_account (raw_data : List Nat) : MintState :=
  if raw_data.length < 82 then defaultMintState
  else
    let s1 : MintState :=
      { defaultMintState with mint_authority_enabled := raw_data.getD 0 0 == 1 }
    let s2 : MintState :=
      if 36 ≤ raw_data.length then
        { s1 with supply := leBytesToNat ((raw_data.drop 36).take 8) }
      else s1
    let s3 : MintState :=
      if 45 ≤ raw_data.length then { s2 with decimals := raw_data.getD 44 0 } else s2
    if 50 ≤ raw_data.length then
      { s3 with freeze_authority_enabled := raw_data.getD 46 0 == 1 }
    else s3

/-- C4: decoding a raw mint account blob. Every blob shorter than 82 bytes
decodes to the all-defaults MintState (both authorities active, decimals 9,
supply 0) and no error is raised (the function is total); for a blob of at
least 82 bytes, mint_authority_enabled holds iff byte 0 equals 1, supply is
the little-endian unsigned integer of bytes 36 to 43, decimals is byte 44, and
freeze_authority_enabled holds iff byte 46 equals 1. -/
theorem C4_parse_mint_account_layout (raw_data : List Nat) :
    parse_mint_account raw_data =
      if raw_data.length < 82 then defaultMintState
      else
        { mint_authority_enabled := raw_data.getD 0 0 == 1
          freeze_authority_enabled := raw_data.getD 46 0 == 1
          decimals := raw_data.getD 44 0
          supply := leBytesToNat ((raw_data.drop 36).take 8) } := by
  unfold parse_mint_account
  by_cases hshort : raw_data.length < 82
  · rw [if_pos hshort, if_pos hshort]
  · have h36 : 36 ≤ raw_data.length := by omega
    have h45 : 45 ≤ raw_data.length := by omega
    have h50 : 50 ≤ raw_data.length := by omega
    rw [if_neg hshort, if_neg hshort]
    simp only [if_pos h36, if_pos h45, if_pos h50]

/-! ## HolderDistributionSource
    (SolanaRPCClient.get_holder_distribution, src/app/services/solana_rpc.py) -/

/-- Containment of one character list in another as a contiguous run, matching
the Python substring operator. -/
def charsContain (needle : List Char) : List Char → Bool
  | [] => needle.isEmpty
  | c :: rest => needle.isPrefixOf (c :: rest) || charsContain needle rest

/-- Python substring test: needle in hay. -/
def pyStrIn (needle hay : String) : Bool := charsContain needle.toList hay.toList

/-- Raydium authority address constant (solana_rpc.py line 17). -/
def RAYDIUM_AUTHORITY : String := "5Q544fKrFoe6tsEbD7S8EmxGTJYAKtTVhAW5Q5pge4j1"

/-- Orca authority address constant (solana_rpc.py line 18). -/
def ORCA_AUTHORITY : String := "9W959DqEETiGZocYWCQPaJ6sBmUzgfxXfqGeTEdp3aQP"

/-- Known liquidity-program addresses (solana_rpc.py lines 20-25). -/
def KNOWN_LP_PROGRAMS : List String :=
  ["675kPX9MHTjS2zt1qfr1NYHuzeLXfQM9H24wFSUt1Mp8",
   "CAMMCzo5YL8w4VFF8KVHrK22GGUsp5VTaW7grrKgrWqK",
   "whirLbMiicVdio4qvUfM5KAg6Ct8VwpYzGff3uctyCc",
   "LBUZKhRxPF3XUpBCjp4YzTKgLccjZhTSDM9YuVaPwxo"]

/-- Known burn addresses (solana_rpc.py lines 27-30). -/
def BURN_ADDRESSES : List String :=
  ["1nc1nerator11111111111111111111111111111111",
   "11111111111111111111111111111111"]

/-- SolanaRPCClient._is_likely_lp_or_locked: the address is a known burn
address, or contains one of the known liquidity authorities or programs as a
substring. -/
def is_likely_lp_or_locked (token_account_address : String) : Bool :=
  BURN_ADDRESSES.contains token_account_address
  || pyStrIn RAYDIUM_AUTHORITY token_account_address
  || pyStrIn ORCA_AUTHORITY token_account_address
  || KNOWN_LP_PROGRAMS.any (fun lp_program => pyStrIn lp_program token_account_address)

/-- One entry of the getTokenLargestAccounts RPC response: token account
address and integer raw amount. -/
structure TokenAccount where
  address : String
  amount : Nat
deriving DecidableEq, Repr

/-- One row of the per-holder breakdown built by the loop. -/
structure HolderEntry where
  rank : Nat
  address : String
  amount : Nat
  percentage : ℚ
  is_lp_or_locked : Bool
deriving DecidableEq, Repr

/-- Result dict of get_holder_distribution. -/
structure HolderDistribution where
  total_holders : Nat
  top_10_percent : ℚ
  lp_locked_percent : ℚ
  holder_data : List HolderEntry
deriving DecidableEq, Repr

/-- Maximum-caution default holder distribution (solana_rpc.py lines 46-51). -/
def defaultHolderDistribution : HolderDistribution :=
  { total_holders := 0
    top_10_percent := 50
    lp_locked_percent := 0
    holder_data := [] }

/-- The for-loop of get_holder_distribution (solana_rpc.py lines 78-97) over
the enumerated accounts, accumulating the genuine-holder bucket, the
LP-or-locked bucket, and the per-holder rows; i is the running enumerate
index. -/
def holderLoop (total_supply : Nat) : Nat → List TokenAccount → Nat × Nat × List HolderEntry
  | _, [] => (0, 0, [])
  | i, account :: rest =>
    let amount := account.amount
    let percentage : ℚ :=
      if 0 < total_supply then ((amount : ℚ) / (total_supply : ℚ)) * 100 else 0
    let is_lp := is_likely_lp_or_locked account.address
    let entry : HolderEntry :=
      { rank := i + 1
        address := account.address
        amount := amount
        percentage := round2 percentage
        is_lp_or_locked := is_lp }
    let r := holderLoop total_supply (i + 1) rest
    if is_lp then (r.1, amount + r.2.1, entry :: r.2.2)
    else (amount + r.1, r.2.1, entry :: r.2.2)

/-- SolanaRPCClient.get_holder_distribution after the two RPC reads, as a
function of the largest-accounts response and the optional supply amount
(none models a failed getTokenSupply read). The cache layer is modelled
separately below. -/
def get_holder_distribution (largest_accounts : List TokenAccount)
    (supply_amount : Option Nat) : HolderDistribution :=
  if largest_accounts.isEmpty then defaultHolderDistribution
  else
    let fetched_supply := match supply_amount with | some a => a | none => 0
    let total_supply :=
      if fetched_supply = 0 then (largest_accounts.map (fun a => a.amount)).sum
      else fetched_supply
    if total_supply = 0 then defaultHolderDistribution
    else
      let r := holderLoop total_supply 0 (largest_accounts.take 10)
      { total_holders := largest_accounts.length
        top_10_percent :=
          round2 (if 0 < total_supply then ((r.1 : ℚ) / (total_supply : ℚ)) * 100 else 0)
        lp_locked_percent :=
          round2 (if 0 < total_supply then ((r.2.1 : ℚ) / (total_supply : ℚ)) * 100 else 0)
        holder_data := r.2.2 }

/-- Reference per-holder breakdown following the specification wording:
ordered rows of rank, address, amount, percent of total supply, and the
LP-or-locked classification. -/
def specHolderBreakdown (total_supply : Nat) (rank : Nat) :
    List TokenAccount → List HolderEntry
  | [] => []
  | a :: rest =>
    { rank := rank
      address := a.address
      amount := a.amount
      percentage := round2 (((a.amount : ℚ) / (total_supply : ℚ)) * 100)
      is_lp_or_locked := is_likely_lp_or_locked a.address }
      :: specHolderBreakdown total_supply (rank + 1) rest

/-- Reference holder distribution following the specification wording of
section 4.4, with the supply fallback read as the sum of all returned
largest-account amounts (the amendment C5 forces): classify each of up to 10
largest accounts, sum amounts into the LP-or-locked bucket and the
genuine-holder bucket, convert each bucket to a percent of total supply
rounded to 2 decimals, and count only the genuine-holder bucket in
top_10_percent. -/
def specHolderDistribution (largest : List TokenAccount)
    (supply_amount : Option Nat) : HolderDistribution :=
  if largest.isEmpty then defaultHolderDistribution
  else
    let fetched := supply_amount.getD 0
    let total := if fetched = 0 then (largest.map (fun a => a.amount)).sum else fetched
    if total = 0 then defaultHolderDistribution
    else
      let top10 := largest.take 10
      let lp_bucket : ℕ :=
        ((top10.filter (fun a => is_likely_lp_or_locked a.address)).map
          (fun a => a.amount)).sum
      let holder_bucket : ℕ :=
        ((top10.filter (fun a => ! is_likely_lp_or_locked a.address)).map
          (fun a => a.amount)).sum
      { total_holders := largest.length
        top_10_percent := round2 (((holder_bucket : ℚ) / (total : ℚ)) * 100)
        lp_locked_percent := round2 (((lp_bucket : ℚ) / (total : ℚ)) * 100)
        holder_data := specHolderBreakdown total 1 top10 }

theorem holderLoop_eq_spec (total : Nat) (h : 0 < total) :
    ∀ (accs : List TokenAccount) (i : Nat),
      holderLoop total i accs =
        (((accs.filter (fun a => ! is_likely_lp_or_locked a.address)).map
            (fun a => a.amount)).sum,
         ((accs.filter (fun a => is_likely_lp_or_locked a.address)).map
            (fun a => a.amount)).sum,
         specHolderBreakdown total (i + 1) accs) := by
  intro accs
  induction accs with
  | nil => intro i; simp [holderLoop, specHolderBreakdown]
  | cons a rest ih =>
    intro i
    unfold holderLoop
    simp only [if_pos h, ih (i + 1)]
    by_cases hlp : is_likely_lp_or_locked a.address
    · simp [hlp, specHolderBreakdown, List.filter_cons]
    · simp [hlp, specHolderBreakdown, List.filter_cons]

/-- C5 counterexample: the claim computes the fallback total supply as the sum
of the ten largest account amounts, but the code sums all returned accounts.
With eleven returned accounts (ten genuine holders of 98 units and one of 20
units) and a failed supply read, the code computes a top-10 concentration of
98 percent of the 1000-unit total, while the claim as stated predicts 100
percent of a 980-unit total. -/
theorem C5_counterexample :
    (get_holder_distribution
        [⟨"h1", 98⟩, ⟨"h2", 98⟩, ⟨"h3", 98⟩, ⟨"h4", 98⟩, ⟨"h5", 98⟩,
         ⟨"h6", 98⟩, ⟨"h7", 98⟩, ⟨"h8", 98⟩, ⟨"h9", 98⟩, ⟨"h10", 98⟩,
         ⟨"h11", 20⟩] none).top_10_percent = 98
    ∧ round2 (((((([⟨"h1", 98⟩, ⟨"h2", 98⟩, ⟨"h3", 98⟩, ⟨"h4", 98⟩, ⟨"h5", 98⟩,
         ⟨"h6", 98⟩, ⟨"h7", 98⟩, ⟨"h8", 98⟩, ⟨"h9", 98⟩, ⟨"h10", 98⟩,
         ⟨"h11", 20⟩] : List TokenAccount).take 10).filter
           (fun a => ! is_likely_lp_or_locked a.address)).map
           (fun a => a.amount)).sum : ℚ)
        / (((([⟨"h1", 98⟩, ⟨"h2", 98⟩, ⟨"h3", 98⟩, ⟨"h4", 98⟩, ⟨"h5", 98⟩,
           ⟨"h6", 98⟩, ⟨"h7", 98⟩, ⟨"h8", 98⟩, ⟨"h9", 98⟩, ⟨"h10", 98⟩,
           ⟨"h11", 20⟩] : List TokenAccount).take 10).map
             (fun a => a.amount)).sum : ℚ) * 100) = 100
    ∧ (98 : ℚ) ≠ 100 := by
  refine ⟨?_, ?_, by norm_num⟩
  · norm_num +decide [get_holder_distribution, holderLoop, is_likely_lp_or_locked,
      pyStrIn, charsContain, round2, pyRound, defaultHolderDistribution,
      BURN_ADDRESSES, RAYDIUM_AUTHORITY, ORCA_AUTHORITY, KNOWN_LP_PROGRAMS]
  · norm_num +decide [is_likely_lp_or_locked, pyStrIn, charsContain, round2, pyRound,
      BURN_ADDRESSES, RAYDIUM_AUTHORITY, ORCA_AUTHORITY, KNOWN_LP_PROGRAMS]

/-- C5 amended: get_holder_distribution behaves as the claim states except that
the fallback total supply (used when the supply read fails or returns zero) is
the sum of all returned largest-account amounts, not only of the first ten:
empty holder data or a zero total yields the defaults (top10 50, lpLocked 0);
otherwise each of up to 10 largest accounts is classified LP-or-locked or
genuine holder, bucket sums are converted to percents of total supply rounded
to 2 decimals, and top_10_percent counts only the genuine-holder bucket. -/
theorem C5_holder_distribution_spec (largest : List TokenAccount)
    (supply_amount : Option Nat) :
    get_holder_distribution largest supply_amount
      = specHolderDistribution largest supply_amount := by
  unfold get_holder_distribution specHolderDistribution
  by_cases hempty : largest.isEmpty
  · rw [if_pos hempty, if_pos hempty]
  · rw [if_neg hempty, if_neg hempty]
    have hfetch : (match supply_amount with | some a => a | none => 0)
        = supply_amount.getD 0 := by
      cases supply_amount <;> rfl
    rw [hfetch]
    by_cases hzero :
        (if supply_amount.getD 0 = 0 then (largest.map (fun a => a.amount)).sum
          else supply_amount.getD 0) = 0
    · rw [if_pos hzero, if_pos hzero]
    · rw [if_neg hzero, if_neg hzero]
      have hpos : 0 < (if supply_amount.getD 0 = 0
          then (largest.map (fun a => a.amount)).sum else supply_amount.getD 0) :=
        Nat.pos_of_ne_zero hzero
      simp only [holderLoop_eq_spec _ hpos, if_pos hpos]

/-! ## EnrichmentPipeline (src/app/routers/detector.py)

    The two handlers are modelled after the candidate fetch: the upstream
    token list, the mint-metadata lookup and the holder-distribution lookup
    are inputs (the latter two as functions of the contract address, standing
    for the cached client calls, which are deterministic within one request
    window). -/

/-- One enriched candidate dict as produced by DexScreenerClient
(_enrich_token_data), restricted to the fields the detector reads. -/
structure Candidate where
  name : String
  symbol : String
  contract_address : String
  created_at : Option ℤ
  age_minutes : ℤ
  liquidity_usd : ℚ
  price_usd : Option ℚ
  market_cap_usd : Option ℚ
  volume_24h_usd : ℚ
  dex : String
  pair_address : String
  pair_url : String
deriving DecidableEq, Repr

/-- TokenInfo response row (schemas.py). -/
structure TokenInfo where
  name : String
  symbol : String
  contract_address : String
  created_at : Option ℤ
  age_minutes : ℤ
  trust_score : ℤ
  risk_level : RiskLevel
  liquidity_usd : ℚ
  price_usd : Option ℚ
  market_cap_usd : Option ℚ
  volume_24h_usd : ℚ
  risk_factors : RiskFactors
  dex : String
  pair_address : String
  pair_url : String
deriving DecidableEq, Repr

/-- Enrichment of one candidate (detector.py lines 124-154 and 213-242): look
up mint metadata and holder distribution for the contract address, convert age
to hours, score, and build the TokenInfo row. -/
def enrich_token (meta : String → MintState) (hold : String → HolderDistribution)
    (token_data : Candidate) : TokenInfo :=
  let metadata := meta token_data.contract_address
  let holder_data := hold token_data.contract_address
  let age_hours : ℚ := (token_data.age_minutes : ℚ) / 60
  let r := calculate_trust_score metadata.mint_authority_enabled
    metadata.freeze_authority_enabled holder_data.lp_locked_percent
    holder_data.top_10_percent age_hours
  { name := token_data.name
    symbol := token_data.symbol
    contract_address := token_data.contract_address
    created_at := token_data.created_at
    age_minutes := token_data.age_minutes
    trust_score := r.1
    risk_level := r.2.1
    liquidity_usd := token_data.liquidity_usd
    price_usd := token_data.price_usd
    market_cap_usd := token_data.market_cap_usd
    volume_24h_usd := token_data.volume_24h_usd
    risk_factors := r.2.2
    dex := token_data.dex
    pair_address := token_data.pair_address
    pair_url := token_data.pair_url }

/-- The enrichment loop of the POST handler detect_meme_coins (detector.py
lines 114-159): skip contract addresses already seen, enrich, and break once
the enriched list reaches the request limit. The Python loop carries the
produced list and compares its length to the fixed limit; here the remaining
quota is carried instead (remaining = limit - length so far), which renders
the break test len+1 >= limit as remaining <= 1. -/
def detect_meme_coins_loop (meta : String → MintState)
    (hold : String → HolderDistribution) :
    Nat → List Candidate → List String → List TokenInfo
  | _, [], _ => []
  | remaining, token_data :: rest, seen_contracts =>
    if seen_contracts.contains token_data.contract_address then
      detect_meme_coins_loop meta hold remaining rest seen_contracts
    else
      let token_info := enrich_token meta hold token_data
      if remaining ≤ 1 then [token_info]
      else token_info ::
        detect_meme_coins_loop meta hold (remaining - 1) rest
          (token_data.contract_address :: seen_contracts)

/-- Stable insertion used to model the final Python list.sort with
key=trust_score and reverse=True: an element is placed before the first
element whose score does not exceed it, so equal scores keep their original
relative order; the Python sort is stable and descending, and the stable
descending order is unique, so this insertion sort computes the same list. -/
def insertByScoreDesc (x : TokenInfo) : List TokenInfo → List TokenInfo
  | [] => [x]
  | y :: ys =>
    if y.trust_score ≤ x.trust_score then x :: y :: ys
    else y :: insertByScoreDesc x ys

/-- Stable sort by descending trust score (detector.py lines 161 and 246). -/
def sortByScoreDesc (l : List TokenInfo) : List TokenInfo :=
  l.foldr insertByScoreDesc []

/-- POST handler enrichment result for a fetched candidate list: dedup-and-
limit loop, then stable descending sort. -/
def detect_meme_coins (meta : String → MintState) (hold : String → HolderDistribution)
    (limit : Nat) (tokens_data : List Candidate) : List TokenInfo :=
  sortByScoreDesc (detect_meme_coins_loop meta hold limit tokens_data [])

/-- GET handler enrichment result for a fetched candidate list (detector.py
lines 208-246): every candidate is enriched, with no seen-set and no limit
break, then the list is stably sorted by descending trust score. -/
def detect_meme_coins_get (meta : String → MintState)
    (hold : String → HolderDistribution) (tokens_data : List Candidate) :
    List TokenInfo :=
  sortByScoreDesc (tokens_data.map (enrich_token meta hold))

/-- Reference first-seen deduplication following the specification wording:
keep each contract address the first time it appears, drop later occurrences,
preserving order. -/
def dedupFirstSeen : List Candidate → List String → List Candidate
  | [], _ => []
  | c :: rest, seen =>
    if seen.contains c.contract_address then dedupFirstSeen rest seen
    else c :: dedupFirstSeen rest (c.contract_address :: seen)

theorem dedupFirstSeen_sublist (cands : List Candidate) :
    ∀ seen, (dedupFirstSeen cands seen).Sublist cands := by
  induction cands with
  | nil => intro seen; simp [dedupFirstSeen]
  | cons c rest ih =>
    intro seen
    unfold dedupFirstSeen
    split_ifs with hc
    · exact (ih seen).trans (List.sublist_cons_self c rest)
    · exact (ih (c.contract_address :: seen)).cons₂ c

theorem dedupFirstSeen_addr_mem (cands : List Candidate) :
    ∀ seen a, a ∈ (dedupFirstSeen cands seen).map (fun c => c.contract_address)
      ↔ a ∈ cands.map (fun c => c.contract_address) ∧ a ∉ seen := by
  induction cands with
  | nil => intro seen a; simp [dedupFirstSeen]
  | cons c rest ih =>
    intro seen a
    unfold dedupFirstSeen
    split_ifs with hc
    · rw [ih seen a]
      simp only [List.map_cons, List.mem_cons]
      constructor
      · rintro ⟨hmem, hns⟩; exact ⟨Or.inr hmem, hns⟩
      · rintro ⟨hmem | hmem, hns⟩
        · exfalso
          apply hns
          rw [hmem]
          simpa [List.contains_iff_exists_mem_beq, beq_iff_eq] using hc
        · exact ⟨hmem, hns⟩
    · simp only [List.map_cons, List.mem_cons, ih (c.contract_address :: seen) a,
        List.mem_cons]
      have hcs : c.contract_address ∉ seen := by
        intro hmem
        apply hc
        simpa [List.contains_iff_exists_mem_beq, beq_iff_eq] using hmem
      constructor
      · rintro (rfl | ⟨hmem, hns⟩)
        · exact ⟨Or.inl rfl, hcs⟩
        · exact ⟨Or.inr hmem, fun hx => hns (Or.inr hx)⟩
      · rintro ⟨rfl | hmem, hns⟩
        · exact Or.inl rfl
        · by_cases hxc : a = c.contract_address
          · exact Or.inl hxc
          · exact Or.inr ⟨hmem, fun hx => (by
              rcases hx with hx | hx
              · exact hxc hx
              · exact hns hx)⟩

theorem dedupFirstSeen_addr_nodup (cands : List Candidate) :
    ∀ seen, ((dedupFirstSeen cands seen).map (fun c => c.contract_address)).Nodup := by
  induction cands with
  | nil => intro seen; simp [dedupFirstSeen]
  | cons c rest ih =>
    intro seen
    unfold dedupFirstSeen
    split_ifs with hc
    · exact ih seen
    · simp only [List.map_cons, List.nodup_cons]
      refine ⟨?_, ih (c.contract_address :: seen)⟩
      intro hmem
      rw [dedupFirstSeen_addr_mem] at hmem
      exact hmem.2 (List.mem_cons_self _ _)

theorem insertByScoreDesc_length (x : TokenInfo) (l : List TokenInfo) :
    (insertByScoreDesc x l).length = l.length + 1 := by
  induction l with
  | nil => rfl
  | cons y ys ih =>
    unfold insertByScoreDesc
    split_ifs with hc
    · simp
    · simp [ih]

theorem sortByScoreDesc_length (l : List TokenInfo) :
    (sortByScoreDesc l).length = l.length := by
  induction l with
  | nil => rfl
  | cons y ys ih =>
    unfold sortByScoreDesc at *
    simp [List.foldr_cons, insertByScoreDesc_length, ih]

theorem insertByScoreDesc_mem (x : TokenInfo) (l : List TokenInfo) (z : TokenInfo)
    (hz : z ∈ insertByScoreDesc x l) : z = x ∨ z ∈ l := by
  induction l with
  | nil => simpa [insertByScoreDesc] using hz
  | cons y ys ih =>
    unfold insertByScoreDesc at hz
    split_ifs at hz with hc
    · rcases List.mem_cons.mp hz with rfl | hz
      · exact Or.inl rfl
      · exact Or.inr hz
    · rcases List.mem_cons.mp hz with rfl | hz
      · exact Or.inr (List.mem_cons_self _ _)
      · rcases ih hz with rfl | hmem
        · exact Or.inl rfl
        · exact Or.inr (List.mem_cons_of_mem _ hmem)

theorem insertByScoreDesc_sorted (x : TokenInfo) (l : List TokenInfo)
    (h : List.Pairwise (fun a b => b.trust_score ≤ a.trust_score) l) :
    List.Pairwise (fun a b => b.trust_score ≤ a.trust_score)
      (insertByScoreDesc x l) := by
  induction l with
  | nil => simp [insertByScoreDesc]
  | cons y ys ih =>
    rw [List.pairwise_cons] at h
    obtain ⟨hy, hys⟩ := h
    unfold insertByScoreDesc
    split_ifs with hc
    · rw [List.pairwise_cons]
      refine ⟨?_, List.pairwise_cons.mpr ⟨hy, hys⟩⟩
      intro z hz
      rcases List.mem_cons.mp hz with rfl | hz
      · exact hc
      · exact le_trans (hy z hz) hc
    · rw [List.pairwise_cons]
      refine ⟨?_, ih hys⟩
      intro z hz
      have hmem : z = x ∨ z ∈ ys := by
        have := insertByScoreDesc_mem x ys z hz
        exact this
      rcases hmem with rfl | hz
      · omega
      · exact hy z hz

theorem sortByScoreDesc_sorted (l : List TokenInfo) :
    List.Pairwise (fun a b => b.trust_score ≤ a.trust_score) (sortByScoreDesc l) := by
  induction l with
  | nil => simp [sortByScoreDesc]
  | cons y ys ih =>
    unfold sortByScoreDesc at *
    simpa using insertByScoreDesc_sorted y _ ih

theorem insertByScoreDesc_filter (x : TokenInfo) (l : List TokenInfo) (s : ℤ) :
    (insertByScoreDesc x l).filter (fun t => t.trust_score == s)
      = if x.trust_score = s
        then x :: l.filter (fun t => t.trust_score == s)
        else l.filter (fun t => t.trust_score == s) := by
  induction l with
  | nil =>
    by_cases hx : x.trust_score = s <;>
      simp [insertByScoreDesc, List.filter_cons, beq_iff_eq, hx]
  | cons y ys ih =>
    unfold insertByScoreDesc
    by_cases hc : y.trust_score ≤ x.trust_score
    · rw [if_pos hc]
      by_cases hx : x.trust_score = s <;>
        simp [List.filter_cons, beq_iff_eq, hx]
    · rw [if_neg hc]
      push_neg at hc
      by_cases hy : y.trust_score = s
      · have hx : ¬ x.trust_score = s := by omega
        simp [List.filter_cons, beq_iff_eq, hy, hx, ih]
      · by_cases hx : x.trust_score = s <;>
          simp [List.filter_cons, beq_iff_eq, hy, hx, ih]

theorem sortByScoreDesc_filter (l : List TokenInfo) (s : ℤ) :
    (sortByScoreDesc l).filter (fun t => t.trust_score == s)
      = l.filter (fun t => t.trust_score == s) := by
  induction l with
  | nil => rfl
  | cons y ys ih =>
    unfold sortByScoreDesc at *
    rw [List.foldr_cons, insertByScoreDesc_filter]
    by_cases hy : y.trust_score = s
    · simp [List.filter_cons, hy, ih]
    · simp [List.filter_cons, hy, ih]

theorem detect_meme_coins_loop_eq (meta : String → MintState)
    (hold : String → HolderDistribution) :
    ∀ (cands : List Candidate) (remaining : Nat) (seen : List String),
      detect_meme_coins_loop meta hold remaining cands seen
        = ((dedupFirstSeen cands seen).take (max remaining 1)).map
            (enrich_token meta hold) := by
  intro cands
  induction cands with
  | nil => intro remaining seen; simp [detect_meme_coins_loop, dedupFirstSeen]
  | cons c rest ih =>
    intro remaining seen
    unfold detect_meme_coins_loop dedupFirstSeen
    by_cases hc : seen.contains c.contract_address
    · rw [if_pos hc, if_pos hc]
      exact ih remaining seen
    · rw [if_neg hc, if_neg hc]
      by_cases hr : remaining ≤ 1
      · rw [if_pos hr]
        have hmax : max remaining 1 = 1 := by omega
        rw [hmax]
        simp
      · rw [if_neg hr]
        obtain ⟨k, rfl⟩ : ∃ k, remaining = k + 1 := ⟨remaining - 1, by omega⟩
        have h1 : max (k + 1) 1 = k + 1 := by omega
        have h2 : k + 1 - 1 = k := by omega
        have h3 : max k 1 = k := by omega
        rw [h1, h2, ih k (c.contract_address :: seen), h3, List.take_succ_cons,
          List.map_cons]

/-- Constant mint-metadata lookup standing for an upstream that always fails,
so that every address resolves to the maximum-caution defaults. -/
def constMeta : String → MintState := fun _ => defaultMintState

/-- Constant holder-distribution lookup standing for an upstream that always
fails, so that every address resolves to the maximum-caution defaults. -/
def constHold : String → HolderDistribution := fun _ => defaultHolderDistribution

/-- Concrete candidate record used in concrete evaluations. -/
def sampleCandidate (nm addr : String) : Candidate :=
  { name := nm
    symbol := "SMP"
    contract_address := addr
    created_at := none
    age_minutes := 0
    liquidity_usd := 5000
    price_usd := none
    market_cap_usd := none
    volume_24h_usd := 0
    dex := "raydium"
    pair_address := "p"
    pair_url := "u" }

/-- C6 counterexample: the claim asserts that within one response batch every
enriched token has a unique contract address, for any candidate list; the GET
handler detect_meme_coins_get (cited by the claim) performs no deduplication,
so two candidates sharing the contract address mintX produce two enriched
snapshots for that address. -/
theorem C6_counterexample :
    ((detect_meme_coins_get constMeta constHold
        [sampleCandidate "A" "mintX", sampleCandidate "B" "mintX"]).map
        (fun t => t.contract_address)) = ["mintX", "mintX"] := by
  norm_num +decide [detect_meme_coins_get, sortByScoreDesc, insertByScoreDesc,
    enrich_token, constMeta, constHold, sampleCandidate, calculate_trust_score,
    mint_authority_score, freeze_authority_score, lp_locked_score,
    holder_concentration_score, token_age_score, risk_level_of, pyRound, round2,
    defaultMintState, defaultHolderDistribution]

/-- C6 amended: deduplication by contract address holds in the POST handler
detect_meme_coins only: there, when the fetched candidate list is within the
request limit, the enrichment loop enriches exactly one candidate per distinct
contract address, the first-seen one, in first-occurrence order; the GET
handler detect_meme_coins_get enriches every candidate and does not filter
duplicates. -/
theorem C6_post_dedup_first_seen (meta : String → MintState)
    (hold : String → HolderDistribution) (limit : Nat) (cands : List Candidate)
    (h : cands.length ≤ limit) :
    detect_meme_coins_loop meta hold limit cands []
        = (dedupFirstSeen cands []).map (enrich_token meta hold)
    ∧ ((dedupFirstSeen cands []).map (fun c => c.contract_address)).Nodup
    ∧ (dedupFirstSeen cands []).Sublist cands
    ∧ ((dedupFirstSeen cands []).map (fun c => c.contract_address)).toFinset
        = (cands.map (fun c => c.contract_address)).toFinset := by
  refine ⟨?_, dedupFirstSeen_addr_nodup cands [], dedupFirstSeen_sublist cands [], ?_⟩
  · rw [detect_meme_coins_loop_eq]
    congr 1
    apply List.take_of_length_le
    have hsub := (dedupFirstSeen_sublist cands []).length_le
    omega
  · ext a
    simp only [List.mem_toFinset]
    rw [dedupFirstSeen_addr_mem]
    simp

/-- C6 witness: a concrete three-candidate batch in which the first two share
the contract address mintX, enriched with limit 3. -/
theorem C6_post_dedup_first_seen_witness :
    detect_meme_coins_loop constMeta constHold 3
        [sampleCandidate "A" "mintX", sampleCandidate "B" "mintX",
         sampleCandidate "C" "mintY"] []
        = (dedupFirstSeen
            [sampleCandidate "A" "mintX", sampleCandidate "B" "mintX",
             sampleCandidate "C" "mintY"] []).map (enrich_token constMeta constHold)
    ∧ ((dedupFirstSeen
          [sampleCandidate "A" "mintX", sampleCandidate "B" "mintX",
           sampleCandidate "C" "mintY"] []).map
          (fun c => c.contract_address)).Nodup
    ∧ (dedupFirstSeen
          [sampleCandidate "A" "mintX", sampleCandidate "B" "mintX",
           sampleCandidate "C" "mintY"] []).Sublist
        [sampleCandidate "A" "mintX", sampleCandidate "B" "mintX",
         sampleCandidate "C" "mintY"]
    ∧ ((dedupFirstSeen
          [sampleCandidate "A" "mintX", sampleCandidate "B" "mintX",
           sampleCandidate "C" "mintY"] []).map
          (fun c => c.contract_address)).toFinset
        = ([sampleCandidate "A" "mintX", sampleCandidate "B" "mintX",
            sampleCandidate "C" "mintY"].map (fun c => c.contract_address)).toFinset :=
  C6_post_dedup_first_seen constMeta constHold 3
    [sampleCandidate "A" "mintX", sampleCandidate "B" "mintX",
     sampleCandidate "C" "mintY"] (by decide)

/-- C7: on the POST path the enrichment loop stops once limit enriched entries
exist: with the inbound contract limit of at least 1, only the first limit
first-seen candidates are enriched (the take below), the result has at most
limit entries, is sorted by descending trust score, and ties keep their
pre-sort (discovery) order, stated as preservation of every equal-score
fibre. On the GET path (whose fetched candidate list is bounded by limit
upstream) the same bound, sortedness and stability hold, every candidate
being enriched. -/
theorem C7_limit_and_stable_sort (meta : String → MintState)
    (hold : String → HolderDistribution) (limit : Nat)
    (cands candsG : List Candidate) (s : ℤ)
    (hl : 1 ≤ limit) (hg : candsG.length ≤ limit) :
    (detect_meme_coins meta hold limit cands).length ≤ limit
    ∧ detect_meme_coins meta hold limit cands
        = sortByScoreDesc (((dedupFirstSeen cands []).take limit).map
            (enrich_token meta hold))
    ∧ List.Pairwise (fun a b => b.trust_score ≤ a.trust_score)
        (detect_meme_coins meta hold limit cands)
    ∧ (detect_meme_coins meta hold limit cands).filter
          (fun t => t.trust_score == s)
        = (detect_meme_coins_loop meta hold limit cands []).filter
            (fun t => t.trust_score == s)
    ∧ (detect_meme_coins_get meta hold candsG).length ≤ candsG.length
    ∧ (detect_meme_coins_get meta hold candsG).length ≤ limit
    ∧ List.Pairwise (fun a b => b.trust_score ≤ a.trust_score)
        (detect_meme_coins_get meta hold candsG)
    ∧ (detect_meme_coins_get meta hold candsG).filter
          (fun t => t.trust_score == s)
        = (candsG.map (enrich_token meta hold)).filter
            (fun t => t.trust_score == s) := by
  have hmax : max limit 1 = limit := by omega
  have hloop := detect_meme_coins_loop_eq meta hold cands limit []
  rw [hmax] at hloop
  have hgetlen : (detect_meme_coins_get meta hold candsG).length = candsG.length := by
    unfold detect_meme_coins_get
    rw [sortByScoreDesc_length, List.length_map]
  refine ⟨?_, ?_, ?_, ?_, ?_, ?_, ?_, ?_⟩
  · unfold detect_meme_coins
    rw [sortByScoreDesc_length, hloop, List.length_map]
    have := List.length_take_le limit (dedupFirstSeen cands [])
    omega
  · unfold detect_meme_coins
    rw [hloop]
  · exact sortByScoreDesc_sorted _
  · unfold detect_meme_coins
    rw [sortByScoreDesc_filter]
  · omega
  · omega
  · exact sortByScoreDesc_sorted _
  · unfold detect_meme_coins_get
    rw [sortByScoreDesc_filter]

/-- C7 witness: concrete POST batch of three candidates with limit 2 and a
concrete GET batch of one candidate, at the equal-score fibre 8. -/
theorem C7_limit_and_stable_sort_witness :
    (detect_meme_coins constMeta constHold 2
        [sampleCandidate "A" "mintX", sampleCandidate "B" "mintX",
         sampleCandidate "C" "mintY"]).length ≤ 2
    ∧ detect_meme_coins constMeta constHold 2
        [sampleCandidate "A" "mintX", sampleCandidate "B" "mintX",
         sampleCandidate "C" "mintY"]
        = sortByScoreDesc (((dedupFirstSeen
            [sampleCandidate "A" "mintX", sampleCandidate "B" "mintX",
             sampleCandidate "C" "mintY"] []).take 2).map
            (enrich_token constMeta constHold))
    ∧ List.Pairwise (fun a b => b.trust_score ≤ a.trust_score)
        (detect_meme_coins constMeta constHold 2
          [sampleCandidate "A" "mintX", sampleCandidate "B" "mintX",
           sampleCandidate "C" "mintY"])
    ∧ (detect_meme_coins constMeta constHold 2
          [sampleCandidate "A" "mintX", sampleCandidate "B" "mintX",
           sampleCandidate "C" "mintY"]).filter (fun t => t.trust_score == 8)
        = (detect_meme_coins_loop constMeta constHold 2
            [sampleCandidate "A" "mintX", sampleCandidate "B" "mintX",
             sampleCandidate "C" "mintY"] []).filter (fun t => t.trust_score == 8)
    ∧ (detect_meme_coins_get constMeta constHold
          [sampleCandidate "D" "mintZ"]).length ≤ 1
    ∧ (detect_meme_coins_get constMeta constHold
          [sampleCandidate "D" "mintZ"]).length ≤ 2
    ∧ List.Pairwise (fun a b => b.trust_score ≤ a.trust_score)
        (detect_meme_coins_get constMeta constHold [sampleCandidate "D" "mintZ"])
    ∧ (detect_meme_coins_get constMeta constHold
          [sampleCandidate "D" "mintZ"]).filter (fun t => t.trust_score == 8)
        = ([sampleCandidate "D" "mintZ"].map
            (enrich_token constMeta constHold)).filter
            (fun t => t.trust_score == 8) :=
  C7_limit_and_stable_sort constMeta constHold 2
    [sampleCandidate "A" "mintX", sampleCandidate "B" "mintX",
     sampleCandidate "C" "mintY"]
    [sampleCandidate "D" "mintZ"] 8 (by decide) (by decide)

/-! ## TTL caches (cachetools.TTLCache) and
    DexScreenerClient.get_latest_solana_tokens (src/app/services/dex_screener.py) -/

/-- One TTL cache slot: stored value and its insertion timestamp. -/
structure CacheEntry (α : Type) where
  value : α
  stored_at : Nat
deriving DecidableEq, Repr

/-- Lookup in a TTL cache modelled as an association list: a key is visible
while fewer than ttl seconds have passed since its insertion, which is the
TTLCache expiry rule. Capacity eviction (maxsize) is not modelled: the cache
properties below concern one key between consecutive calls, and evicting
other keys cannot change them. -/
def ttl_lookup {κ α : Type} [DecidableEq κ] (ttl now : Nat)
    (cache : List (κ × CacheEntry α)) (key : κ) : Option α :=
  match cache.find? (fun e => e.1 == key) with
  | some p => if now < p.2.stored_at + ttl then some p.2.value else none
  | none => none

/-- Store into a TTL cache: the new slot replaces any slot under the same key. -/
def ttl_store {κ α : Type} [DecidableEq κ] (cache : List (κ × CacheEntry α))
    (key : κ) (v : α) (now : Nat) : List (κ × CacheEntry α) :=
  (key, ⟨v, now⟩) :: cache.filter (fun e => ! (e.1 == key))

theorem ttl_lookup_store {κ α : Type} [DecidableEq κ] (ttl t now : Nat)
    (cache : List (κ × CacheEntry α)) (key : κ) (v : α) :
    ttl_lookup ttl t (ttl_store cache key v now) key
      = if t < now + ttl then some v else none := by
  unfold ttl_lookup ttl_store
  simp [List.find?_cons]

theorem ttl_lookup_agree {κ α : Type} [DecidableEq κ] {ttl t u : Nat}
    {cache : List (κ × CacheEntry α)} {key : κ} {a b : α}
    (ha : ttl_lookup ttl t cache key = some a)
    (hb : ttl_lookup ttl u cache key = some b) : a = b := by
  unfold ttl_lookup at ha hb
  cases hfind : cache.find? (fun e => e.1 == key) with
  | none => rw [hfind] at ha; cases ha
  | some p =>
    rw [hfind] at ha hb
    dsimp only at ha hb
    by_cases h1 : t < p.2.stored_at + ttl
    · rw [if_pos h1] at ha
      by_cases h2 : u < p.2.stored_at + ttl
      · rw [if_pos h2] at hb
        simp only [Option.some.injEq] at ha hb
        rw [← ha, ← hb]
      · rw [if_neg h2] at hb; cases hb
    · rw [if_neg h1] at ha; cases ha

/-- Cached value of the market-data cache: the enriched token list and the
stored cached_at timestamp (dex_screener.py lines 41-44). -/
structure CachedTokens where
  tokens : List Candidate
  cached_at : Nat
deriving DecidableEq, Repr

/-- The default cache TTL, settings.cache_ttl_seconds (config.py line 17). -/
def cache_ttl_seconds : Nat := 60

/-- DexScreenerClient.get_latest_solana_tokens as a function of the upstream
fetch outcome: fetch_result stands for the enriched list the two listing
fetches would produce on a miss (an input, since it is upstream data), now is
the current time, and the token cache is threaded explicitly. The cache key is
the (limit, min_liquidity) pair, which is what the formatted key string
encodes. On a hit the cached list, True and the stored timestamp are
returned; on a miss the fetched list is stored before returning with False
and no timestamp. -/
def get_latest_solana_tokens (fetch_result : List Candidate) (now : Nat)
    (cache : List ((Nat × ℚ) × CacheEntry CachedTokens))
    (limit : Nat) (min_liquidity : ℚ) :
    (List Candidate × Bool × Option Nat)
      × List ((Nat × ℚ) × CacheEntry CachedTokens) :=
  match ttl_lookup cache_ttl_seconds now cache (limit, min_liquidity) with
  | some cached_data =>
      ((cached_data.tokens, true, some cached_data.cached_at), cache)
  | none =>
      ((fetch_result, false, none),
        ttl_store cache (limit, min_liquidity) ⟨fetch_result, now⟩ now)

/-- C8: if get_latest_solana_tokens is called twice with the identical
(limit, min_liquidity) pair and at the second call time the cache entry for
that pair is still live (the two calls fall in one TTL window, hypothesis
hlive), then the second call returns exactly the token list of the first
call, reports fromCache true, and returns a present (non-null) cached
timestamp; moreover any call that misses the cache returns its fetched list
with fromCache false and no timestamp, and has stored that list under the
key, timestamped with the call time, before returning. -/
theorem C8_cache_roundtrip
    (cache : List ((Nat × ℚ) × CacheEntry CachedTokens))
    (fetch1 fetch2 : List Candidate) (t0 t1 limit : Nat) (min_liquidity : ℚ)
    (cd : CachedTokens)
    (hlive : ttl_lookup cache_ttl_seconds t1
        (get_latest_solana_tokens fetch1 t0 cache limit min_liquidity).2
        (limit, min_liquidity) = some cd) :
    (get_latest_solana_tokens fetch2 t1
        (get_latest_solana_tokens fetch1 t0 cache limit min_liquidity).2
        limit min_liquidity).1
      = ((get_latest_solana_tokens fetch1 t0 cache limit min_liquidity).1.1,
          true, some cd.cached_at)
    ∧ (some cd.cached_at ≠ (none : Option Nat))
    ∧ (ttl_lookup cache_ttl_seconds t0 cache (limit, min_liquidity) = none →
        (get_latest_solana_tokens fetch1 t0 cache limit min_liquidity).1
            = (fetch1, false, none)
        ∧ ttl_lookup cache_ttl_seconds t0
            (get_latest_solana_tokens fetch1 t0 cache limit min_liquidity).2
            (limit, min_liquidity) = some ⟨fetch1, t0⟩) := by
  cases hfirst : ttl_lookup cache_ttl_seconds t0 cache (limit, min_liquidity) with
  | some e =>
    have hfst : get_latest_solana_tokens fetch1 t0 cache limit min_liquidity
        = ((e.tokens, true, some e.cached_at), cache) := by
      unfold get_latest_solana_tokens
      rw [hfirst]
    have hst : (get_latest_solana_tokens fetch1 t0 cache limit min_liquidity).2
        = cache := by rw [hfst]
    have hres : (get_latest_solana_tokens fetch1 t0 cache limit min_liquidity).1.1
        = e.tokens := by rw [hfst]
    rw [hst] at hlive
    have hcd : cd = e := ttl_lookup_agree hlive hfirst
    have hsecond : get_latest_solana_tokens fetch2 t1 cache limit min_liquidity
        = ((cd.tokens, true, some cd.cached_at), cache) := by
      unfold get_latest_solana_tokens
      rw [hlive]
    refine ⟨?_, by simp, ?_⟩
    · rw [hst, hsecond, hres, hcd]
    · intro hmiss
      exact Option.noConfusion hmiss
  | none =>
    have hfst : get_latest_solana_tokens fetch1 t0 cache limit min_liquidity
        = ((fetch1, false, none),
            ttl_store cache (limit, min_liquidity) ⟨fetch1, t0⟩ t0) := by
      unfold get_latest_solana_tokens
      rw [hfirst]
    have hst : (get_latest_solana_tokens fetch1 t0 cache limit min_liquidity).2
        = ttl_store cache (limit, min_liquidity) ⟨fetch1, t0⟩ t0 := by rw [hfst]
    have hres : (get_latest_solana_tokens fetch1 t0 cache limit min_liquidity).1
        = (fetch1, false, none) := by rw [hfst]
    rw [hst] at hlive
    have hcd : cd = ⟨fetch1, t0⟩ := by
      rw [ttl_lookup_store] at hlive
      by_cases ht : t1 < t0 + cache_ttl_seconds
      · rw [if_pos ht] at hlive
        simp only [Option.some.injEq] at hlive
        exact hlive.symm
      · rw [if_neg ht] at hlive
        cases hlive
    have hsecond : get_latest_solana_tokens fetch2 t1
        (ttl_store cache (limit, min_liquidity) ⟨fetch1, t0⟩ t0) limit min_liquidity
        = ((cd.tokens, true, some cd.cached_at),
            ttl_store cache (limit, min_liquidity) ⟨fetch1, t0⟩ t0) := by
      unfold get_latest_solana_tokens
      rw [hlive]
    refine ⟨?_, by simp, ?_⟩
    · rw [hst, hsecond, hres, hcd]
    · intro _
      refine ⟨hres, ?_⟩
      rw [hst, ttl_lookup_store,
        if_pos (show t0 < t0 + cache_ttl_seconds by unfold cache_ttl_seconds; omega)]

/-- C8 witness: a concrete empty-cache run, first call at time 0 storing one
fetched token, second call at time 30 within the 60 second TTL. -/
theorem C8_cache_roundtrip_witness :
    (get_latest_solana_tokens [] 30
        (get_latest_solana_tokens [sampleCandidate "A" "mintX"] 0 [] 5 1000).2
        5 1000).1
      = ((get_latest_solana_tokens [sampleCandidate "A" "mintX"] 0 [] 5 1000).1.1,
          true, some (CachedTokens.mk [sampleCandidate "A" "mintX"] 0).cached_at)
    ∧ (some (CachedTokens.mk [sampleCandidate "A" "mintX"] 0).cached_at
        ≠ (none : Option Nat))
    ∧ (ttl_lookup cache_ttl_seconds 0
          ([] : List ((Nat × ℚ) × CacheEntry CachedTokens)) (5, (1000 : ℚ)) = none →
        (get_latest_solana_tokens [sampleCandidate "A" "mintX"] 0 [] 5 1000).1
            = ([sampleCandidate "A" "mintX"], false, none)
        ∧ ttl_lookup cache_ttl_seconds 0
            (get_latest_solana_tokens [sampleCandidate "A" "mintX"] 0 [] 5 1000).2
            (5, (1000 : ℚ))
            = some ⟨[sampleCandidate "A" "mintX"], 0⟩) :=
  C8_cache_roundtrip [] [sampleCandidate "A" "mintX"] [] 0 30 5 1000
    ⟨[sampleCandidate "A" "mintX"], 0⟩
    (by simp +decide [get_latest_solana_tokens, ttl_lookup, ttl_store,
      cache_ttl_seconds])

/-! ## Failure caching: HeliusClient.get_token_metadata (helius.py lines 23-44)
    and the cache layer of SolanaRPCClient.get_holder_distribution
    (solana_rpc.py lines 40-57 and 109) -/

/-- TTL of the mint-metadata cache (helius.py line 14). -/
def metadata_cache_ttl : Nat := 300

/-- TTL of the holder-distribution cache (solana_rpc.py line 13). -/
def holder_cache_ttl : Nat := 120

/-- HeliusClient.get_token_metadata as a function of the account-info fetch
outcome (none models a failed or empty _get_account_info read, some carries
the base64-decoded account bytes), with the metadata TTL cache threaded
explicitly. The third component records whether the upstream was contacted
(false on a cache hit). On a miss the result starts from the defaults and is
overwritten by the parsed fields, which always cover all four keys, so it
equals the parse result; it is stored before returning. -/
def get_token_metadata (account_info : Option (List Nat)) (now : Nat)
    (cache : List (String × CacheEntry MintState)) (mint_address : String) :
    MintState × List (String × CacheEntry MintState) × Bool :=
  match ttl_lookup metadata_cache_ttl now cache ("metadata_" ++ mint_address) with
  | some v => (v, cache, false)
  | none =>
      let result := match account_info with
        | none => defaultMintState
        | some raw_data => parse_mint_account raw_data
      (result, ttl_store cache ("metadata_" ++ mint_address) result now, true)

/-- Cache layer of SolanaRPCClient.get_holder_distribution, threading the
holder TTL cache around the pure computation modelled above; the third
component records whether the upstream was contacted (false on a cache hit).
Every return path of the source stores its result before returning, which is
the single store here. -/
def get_holder_distribution_cached (largest_accounts : List TokenAccount)
    (supply_amount : Option Nat) (now : Nat)
    (cache : List (String × CacheEntry HolderDistribution))
    (mint_address : String) :
    HolderDistribution × List (String × CacheEntry HolderDistribution) × Bool :=
  match ttl_lookup holder_cache_ttl now cache ("holders_" ++ mint_address) with
  | some v => (v, cache, false)
  | none =>
      let result := get_holder_distribution largest_accounts supply_amount
      (result, ttl_store cache ("holders_" ++ mint_address) result now, true)

/-- C10: when the upstream fetch fails or yields no usable data, both sources
write the maximum-caution defaults into their TTL caches before returning, and
every subsequent call for the same address within the TTL window (300 seconds
for mint state, 120 for holder distribution) returns the cached defaults
without contacting the upstream: a failed account-info read caches the
all-defaults MintState, and an empty largest-accounts read caches the default
HolderDistribution (top10 50, lpLocked 0); the follow-up calls return those
defaults with the contacted-upstream flag false, whatever their own fetch
inputs would have been. -/
theorem C10_failure_defaults_cached
    (mcache : List (String × CacheEntry MintState))
    (hcache : List (String × CacheEntry HolderDistribution))
    (fetch2 : Option (List Nat)) (largest2 : List TokenAccount)
    (supply2 supply2b : Option Nat) (addr : String) (t0 t1 u0 u1 : Nat)
    (hm : ttl_lookup metadata_cache_ttl t0 mcache ("metadata_" ++ addr) = none)
    (ht : t1 < t0 + metadata_cache_ttl)
    (hh : ttl_lookup holder_cache_ttl u0 hcache ("holders_" ++ addr) = none)
    (hu : u1 < u0 + holder_cache_ttl) :
    get_token_metadata none t0 mcache addr
        = (defaultMintState,
            ttl_store mcache ("metadata_" ++ addr) defaultMintState t0, true)
    ∧ get_token_metadata fetch2 t1
        (ttl_store mcache ("metadata_" ++ addr) defaultMintState t0) addr
        = (defaultMintState,
            ttl_store mcache ("metadata_" ++ addr) defaultMintState t0, false)
    ∧ get_holder_distribution_cached [] supply2 u0 hcache addr
        = (defaultHolderDistribution,
            ttl_store hcache ("holders_" ++ addr) defaultHolderDistribution u0, true)
    ∧ get_holder_distribution_cached largest2 supply2b u1
        (ttl_store hcache ("holders_" ++ addr) defaultHolderDistribution u0) addr
        = (defaultHolderDistribution,
            ttl_store hcache ("holders_" ++ addr) defaultHolderDistribution u0,
            false) := by
  refine ⟨?_, ?_, ?_, ?_⟩
  · unfold get_token_metadata
    rw [hm]
  · unfold get_token_metadata
    rw [ttl_lookup_store, if_pos ht]
  · unfold get_holder_distribution_cached
    rw [hh]
    rfl
  · unfold get_holder_distribution_cached
    rw [ttl_lookup_store, if_pos hu]

/-- C10 witness: empty caches, address mintX, failed reads at time 0, repeat
calls at times 100 and 50. -/
theorem C10_failure_defaults_cached_witness :
    get_token_metadata none 0 [] "mintX"
        = (defaultMintState,
            ttl_store [] ("metadata_" ++ "mintX") defaultMintState 0, true)
    ∧ get_token_metadata (some [0, 1, 2]) 100
        (ttl_store [] ("metadata_" ++ "mintX") defaultMintState 0) "mintX"
        = (defaultMintState,
            ttl_store [] ("metadata_" ++ "mintX") defaultMintState 0, false)
    ∧ get_holder_distribution_cached [] none 0 [] "mintX"
        = (defaultHolderDistribution,
            ttl_store [] ("holders_" ++ "mintX") defaultHolderDistribution 0, true)
    ∧ get_holder_distribution_cached [⟨"h1", 5⟩] (some 5) 50
        (ttl_store [] ("holders_" ++ "mintX") defaultHolderDistribution 0) "mintX"
        = (defaultHolderDistribution,
            ttl_store [] ("holders_" ++ "mintX") defaultHolderDistribution 0,
            false) :=
  C10_failure_defaults_cached [] [] (some [0, 1, 2]) [⟨"h1", 5⟩] none (some 5)
    "mintX" 0 100 0 50 rfl (by unfold metadata_cache_ttl; omega) rfl
    (by unfold holder_cache_ttl; omega)

/-! ## RateLimitedHttpCaller: DexScreenerClient.get_token_pairs
    (src/app/services/dex_screener.py lines 116-138) -/

/-- One upstream HTTP attempt outcome as seen by get_token_pairs: either a
response with a status code and, for a success, the parsed JSON body when it
is a list (none models a 200 whose JSON body is not a list), or a
transport-level exception raised by the HTTP client (connection error,
timeout, or a body that fails to parse), which the source does not catch. -/
inductive UpstreamResponse (α : Type) where
  | http (status_code : Nat) (body : Option (List α)) : UpstreamResponse α
  | exn : UpstreamResponse α
deriving DecidableEq, Repr

/-- The retry loop of get_token_pairs, with an explicit count of remaining
loop iterations (3 at entry, for attempt in range(3)), the attempt index, and
the sleeps performed so far. It returns the outcome (error marks an uncaught
transport exception escaping the function), the number of requests issued,
and the list of sleep durations in seconds. -/
def get_token_pairs_go {α : Type} (responses : Nat → UpstreamResponse α) :
    Nat → Nat → List Nat → Except Unit (Option (List α)) × Nat × List Nat
  | 0, attempt, sleeps => (.ok none, attempt, sleeps)
  | fuel + 1, attempt, sleeps =>
    match responses attempt with
    | .exn => (.error (), attempt + 1, sleeps)
    | .http status_code body =>
      if status_code = 429 then
        get_token_pairs_go responses fuel (attempt + 1) (sleeps ++ [2 ^ attempt])
      else if status_code = 404 then (.ok none, attempt + 1, sleeps)
      else if status_code ≠ 200 then (.ok none, attempt + 1, sleeps)
      else (.ok body, attempt + 1, sleeps)

/-- DexScreenerClient.get_token_pairs on a given stream of upstream attempt
outcomes. -/
def get_token_pairs {α : Type} (responses : Nat → UpstreamResponse α) :
    Except Unit (Option (List α)) × Nat × List Nat :=
  get_token_pairs_go responses 3 0 []

/-- True exactly on a throttling (HTTP 429) response. -/
def is_throttle {α : Type} : UpstreamResponse α → Bool
  | .http status_code _ => status_code == 429
  | .exn => false

/-- Number of consecutive throttling responses at the head of the attempt
stream, capped at the 3 attempts the loop makes. -/
def throttle_run {α : Type} (responses : Nat → UpstreamResponse α) : Nat :=
  if is_throttle (responses 0) then
    if is_throttle (responses 1) then
      if is_throttle (responses 2) then 3 else 2
    else 1
  else 0

/-- Disposition of the first non-throttling response, following the
specification: not-found gives the absent result None, any other non-success
status gives None, a success returns the parsed list when the body is one,
and an uncaught transport exception escapes. -/
def settle_response {α : Type} : UpstreamResponse α → Except Unit (Option (List α))
  | .exn => .error ()
  | .http status_code body =>
    if status_code = 404 then .ok none
    else if status_code ≠ 200 then .ok none
    else .ok body

/-- C9 counterexample: the claim asserts that an HTTP 404 returns an absent
result distinct from a failure, and that the function never raises past this
boundary. In the code a 404 and any other non-success status return the very
same None, so the absent result is not distinct from a failure; and a
transport-level exception on the first attempt is not caught and escapes the
function. -/
theorem C9_counterexample :
    (get_token_pairs (fun _ => UpstreamResponse.http 404 (none : Option (List Unit)))).1
        = .ok none
    ∧ (get_token_pairs (fun _ => UpstreamResponse.http 500 (none : Option (List Unit)))).1
        = .ok none
    ∧ (get_token_pairs (fun _ => (UpstreamResponse.exn : UpstreamResponse Unit)))
        = (.error (), 1, []) := by
  refine ⟨rfl, rfl, rfl⟩

/-- C9 amended: get_token_pairs makes at most 3 requests; writing k for the
number of leading 429 responses (capped at 3), it sleeps exactly 2^0, ...,
2^(k-1) seconds, one sleep per 429 received, and retries only after a 429; if
all 3 attempts are throttled it returns None after sleeping 1, 2 and 4
seconds; otherwise the first non-throttling attempt decides the call: a 404
returns None without retry (the same None as every other failure, not a
distinct value), any other non-success status returns None without retry, a
success returns the parsed body, and a transport-level exception is not
caught and propagates. -/
theorem C9_retry_behaviour {α : Type} (responses : Nat → UpstreamResponse α) :
    get_token_pairs responses
      = (if throttle_run responses = 3
          then ((.ok none : Except Unit (Option (List α))), 3, [1, 2, 4])
          else (settle_response (responses (throttle_run responses)),
                throttle_run responses + 1,
                (List.range (throttle_run responses)).map (fun i => 2 ^ i)))
    ∧ (get_token_pairs responses).2.1 ≤ 3
    ∧ ((List.range (throttle_run responses)).all
        (fun i => is_throttle (responses i))) = true := by
  have hmain : get_token_pairs responses
      = (if throttle_run responses = 3
          then ((.ok none : Except Unit (Option (List α))), 3, [1, 2, 4])
          else (settle_response (responses (throttle_run responses)),
                throttle_run responses + 1,
                (List.range (throttle_run responses)).map (fun i => 2 ^ i))) := by
    cases h0 : responses 0 with
    | exn =>
      simp [get_token_pairs, get_token_pairs_go, throttle_run, is_throttle,
        settle_response, h0] <;> decide
    | http code0 body0 =>
      by_cases hc0 : code0 = 429
      · subst hc0
        cases h1 : responses 1 with
        | exn =>
          simp [get_token_pairs, get_token_pairs_go, throttle_run, is_throttle,
            settle_response, h0, h1] <;> decide
        | http code1 body1 =>
          by_cases hc1 : code1 = 429
          · subst hc1
            cases h2 : responses 2 with
            | exn =>
              simp [get_token_pairs, get_token_pairs_go, throttle_run,
                is_throttle, settle_response, h0, h1, h2] <;> decide
            | http code2 body2 =>
              by_cases hc2 : code2 = 429
              · subst hc2
                simp [get_token_pairs, get_token_pairs_go, throttle_run,
                  is_throttle, settle_response, h0, h1, h2] <;> decide
              · by_cases h404 : code2 = 404
                · simp [get_token_pairs, get_token_pairs_go, throttle_run,
                    is_throttle, settle_response, h0, h1, h2, hc2, h404] <;> decide
                · by_cases h200 : code2 = 200
                  · simp [get_token_pairs, get_token_pairs_go, throttle_run,
                      is_throttle, settle_response, h0, h1, h2, hc2, h404, h200] <;> decide
                  · simp [get_token_pairs, get_token_pairs_go, throttle_run,
                      is_throttle, settle_response, h0, h1, h2, hc2, h404, h200] <;> decide
          · by_cases h404 : code1 = 404
            · simp [get_token_pairs, get_token_pairs_go, throttle_run,
                is_throttle, settle_response, h0, h1, hc1, h404] <;> decide
            · by_cases h200 : code1 = 200
              · simp [get_token_pairs, get_token_pairs_go, throttle_run,
                  is_throttle, settle_response, h0, h1, hc1, h404, h200] <;> decide
              · simp [get_token_pairs, get_token_pairs_go, throttle_run,
                  is_throttle, settle_response, h0, h1, hc1, h404, h200] <;> decide
      · by_cases h404 : code0 = 404
        · simp [get_token_pairs, get_token_pairs_go, throttle_run, is_throttle,
            settle_response, h0, hc0, h404] <;> decide
        · by_cases h200 : code0 = 200
          · simp [get_token_pairs, get_token_pairs_go, throttle_run, is_throttle,
              settle_response, h0, hc0, h404, h200] <;> decide
          · simp [get_token_pairs, get_token_pairs_go, throttle_run, is_throttle,
              settle_response, h0, hc0, h404, h200] <;> decide
  have hrun : throttle_run responses ≤ 3 := by
    unfold throttle_run
    split_ifs <;> omega
  refine ⟨hmain, ?_, ?_⟩
  · rw [hmain]
    by_cases h3 : throttle_run responses = 3
    · rw [if_pos h3]
    · rw [if_neg h3]
      show throttle_run responses + 1 ≤ 3
      omega
  · unfold throttle_run
    split_ifs with b0 b1 b2
    · have : List.range 3 = [0, 1, 2] := rfl
      rw [this]
      simp [b0, b1, b2]
    · have : List.range 2 = [0, 1] := rfl
      rw [this]
      simp [b0, b1]
    · have : List.range 1 = [0] := rfl
      rw [this]
      simp [b0]
    · rfl
